import Mathlib

/-!
Verification development for the solana-bot-server repository.

The definitions below are a shallow embedding of the TypeScript source:

* `executeSwap`, `isStaleOrExpiredError`, `isJup1771or6001`, `isJup1788`,
  `isQuote400` embed the retry/escalation pipeline of
  `server/tradeExecutor.ts` (the variant stored as `src/unnamed/part_018` of
  this checkout).  Network calls (`tryOnce`) are modelled by an oracle
  `env : Nat → Option String` giving, for each attempt index, `none` when the
  attempt succeeds and `some msg` when it throws with message `msg`.
* `waitForConfirmation` embeds the confirmation poll loop of the same file;
  the wall clock is abstracted by the number of status polls the deadline
  permits, and each poll's observed RPC answer is an oracle `Nat → PollResult`.
* `getSolvencyAndTip`, `getFreshQuote`, `getPriorityFeeEstimate`,
  `quoteAmountForSignal`, `raceOutcome` embed `src/tradeExecutor.ts`.
* `tryClaimSignal` and `handleNexagentSignal` embed the idempotency-guarded
  webhook handler of `src/index.ts`; the Firestore create-if-absent document
  collection is modelled by a list of already-claimed signal ids.

JavaScript numbers that the code only ever uses at integer values are
modelled as `Int`/`Nat`; the floating-point constants
(`0.02 * LAMPORTS_PER_SOL` and so on) are modelled by their intended integer
lamport values.
-/

namespace SolanaBot

/-- `prefixOfL needle hay` is true when `needle` is an initial segment of
`hay` (character-by-character). -/
def prefixOfL : List Char → List Char → Bool
  | [], _ => true
  | _ :: _, [] => false
  | a :: as, b :: bs => a = b && prefixOfL as bs

/-- Naive substring search on character lists; embeds JavaScript
`String.prototype.includes`. -/
def includesL : List Char → List Char → Bool
  | hay, needle =>
    if prefixOfL needle hay then true
    else
      match hay with
      | [] => false
      | _ :: t => includesL t needle

/-- `strIncludes hay needle` embeds `hay.includes(needle)`. -/
def strIncludes (hay needle : String) : Bool :=
  includesL hay.toList needle.toList

/-- `includesLower msg needle` embeds `msg.toLowerCase().includes(needle)`
for an all-lowercase `needle`. -/
def includesLower (msg needle : String) : Bool :=
  includesL (msg.toList.map Char.toLower) needle.toList

/-- Embeds `isStaleOrExpiredError` of `server/tradeExecutor.ts`: the message
is lowercased and checked against five substrings. -/
def isStaleOrExpiredError (msg : String) : Bool :=
  includesLower msg ("block height exceeded") ||
  includesLower msg ("expired") ||
  includesLower msg ("blockhash not found") ||
  includesLower msg ("was not processed in the given time") ||
  includesLower msg ("confirmation timeout")

/-- Embeds `isJup1771or6001` (case-sensitive substring checks). -/
def isJup1771or6001 (msg : String) : Bool :=
  strIncludes msg ("custom program error: 0x1771") ||
  strIncludes msg ("Custom:6001")

/-- Embeds `isJup1788`. -/
def isJup1788 (msg : String) : Bool :=
  strIncludes msg ("custom program error: 0x1788") ||
  strIncludes msg ("SharedAccountsRoute") ||
  strIncludes msg ("Instruction: Route")

/-- Embeds `isQuote400`. -/
def isQuote400 (msg : String) : Bool :=
  strIncludes msg ("quote failed 400")

/-- The parameters of one `tryOnce` call in `executeSwap`
(`TryOnceArgs` minus the connection/wallet/mint/amount fields, which the
retry policy never changes). -/
structure AttemptParams where
  slippageBps : Int
  cuPriceMicroLamports : Int
  useSharedAccounts : Bool
  directOnly : Bool
  restrictIntermediates : Bool
  deriving DecidableEq, Repr

/-- Embeds `Math.round(baseCup * 1.2)` on integer inputs:
`round(12*c/10) = floor((12*c + 5)/10)` (JavaScript `Math.round` is
floor of the value plus one half). -/
def mul12round (c : Int) : Int :=
  Int.fdiv (12 * c + 5) 10

/-- Embeds `executeSwap` of `server/tradeExecutor.ts`.  `baseSlip` is
`args.slippageBps ?? DEFAULT_SLIPPAGE_BPS`, `baseCup` is
`args.cuPriceMicroLamports ?? CUP_DEFAULT`, `shared0` is
`args.useSharedAccounts ?? true`.  The oracle `env` gives the outcome of the
`k`-th `tryOnce` call (0-based): `none` for success, `some msg` for a throw
with message `msg`.  Returns the list of attempt parameters in the order the
attempts were made, together with the overall outcome (`Except.error msg`
embeds the function throwing `msg` to its caller). -/
def executeSwap (baseSlip baseCup : Int) (shared0 : Bool)
    (env : Nat → Option String) : List AttemptParams × Except String Unit :=
  let p1 : AttemptParams :=
    ⟨baseSlip, baseCup, shared0, false, false⟩
  match env 0 with
  | none => ([p1], .ok ())
  | some msg =>
    let isSimFail := strIncludes msg ("Simulation failed") || isJup1771or6001 msg
    let isExpiry := isStaleOrExpiredError msg
    let is1788 := isJup1788 msg
    let isQ400 := isQuote400 msg
    if isQ400 then
      let p2 : AttemptParams := ⟨baseSlip + 25, baseCup, shared0, true, true⟩
      match env 1 with
      | none => ([p1, p2], .ok ())
      | some msg2 => ([p1, p2], .error msg2)
    else if isSimFail || isExpiry || is1788 then
      let slip := baseSlip + 50
      let cup := max (mul12round baseCup) (baseCup + 5000)
      let p2 : AttemptParams := ⟨slip, cup, false, false, false⟩
      match env 1 with
      | none => ([p1, p2], .ok ())
      | some msg2 =>
        if isJup1788 msg2 || isSimFail then
          let p3 : AttemptParams := ⟨slip + 25, cup + 5000, false, true, true⟩
          match env 2 with
          | none => ([p1, p2, p3], .ok ())
          | some msg3 => ([p1, p2, p3], .error msg3)
        else ([p1, p2], .error msg2)
    else ([p1], .error msg)

/-- One escalation step between two consecutive attempts: slippage and
compute-unit price never decrease, `directOnly` and `restrictIntermediates`
never fall back from `true` to `false`, and `useSharedAccounts` never goes
back from `false` to `true`. -/
def Escalates (a b : AttemptParams) : Prop :=
  a.slippageBps ≤ b.slippageBps ∧
  a.cuPriceMicroLamports ≤ b.cuPriceMicroLamports ∧
  (a.directOnly = true → b.directOnly = true) ∧
  (a.restrictIntermediates = true → b.restrictIntermediates = true) ∧
  (a.useSharedAccounts = false → b.useSharedAccounts = false)

/-- Embeds the `catch` block of the `/nexagent-signal` route handler in
`server/nexagent-signal.ts`: a successful execution records a `SUCCESS`
event, a thrown error `msg` records a `FAILED` event carrying `msg`. -/
def completeEventRecord : Except String Unit → String × Option String
  | .ok _ => ("SUCCESS", none)
  | .error m => ("FAILED", some m)

/-- Introduction rule for `Escalates`. -/
theorem escalates_intro {a b : AttemptParams}
    (h1 : a.slippageBps ≤ b.slippageBps)
    (h2 : a.cuPriceMicroLamports ≤ b.cuPriceMicroLamports)
    (h3 : a.directOnly = true → b.directOnly = true)
    (h4 : a.restrictIntermediates = true → b.restrictIntermediates = true)
    (h5 : a.useSharedAccounts = false → b.useSharedAccounts = false) :
    Escalates a b :=
  ⟨h1, h2, h3, h4, h5⟩

/-- C1: within one signal's retry sequence in `executeSwap`, consecutive
attempts only escalate: slippage and compute-unit price never decrease,
`directOnly` and `restrictIntermediates` never go from `true` back to
`false`, and `useSharedAccounts` never goes from `false` back to `true`. -/
theorem executeSwap_escalation_monotone (baseSlip baseCup : Int) (shared0 : Bool)
    (env : Nat → Option String) :
    List.Chain' Escalates (executeSwap baseSlip baseCup shared0 env).1 := by
  unfold executeSwap
  cases h0 : env 0 with
  | none => simp
  | some msg =>
    dsimp only
    split
    · -- quote-400 branch: attempt 2 is direct-only with the same fee
      cases h1 : env 1 <;>
      · dsimp only
        refine List.chain'_pair.mpr (escalates_intro ?_ ?_ ?_ ?_ ?_) <;>
          dsimp only
        · omega
        · omega
        · simp
        · simp
        · exact fun h => h
    · split
      · -- simulation-failure / expiry / 1788 branch
        cases h1 : env 1 with
        | none =>
          dsimp only
          refine List.chain'_pair.mpr (escalates_intro ?_ ?_ ?_ ?_ ?_) <;>
            dsimp only
          · omega
          · exact le_trans (by omega) (le_max_right _ _)
          · simp
          · simp
          · simp
        | some msg2 =>
          dsimp only
          split
          · -- third attempt: direct-only, restricted, higher bumps
            cases h2 : env 2 <;>
            · dsimp only
              refine List.chain'_cons.mpr
                ⟨escalates_intro ?_ ?_ ?_ ?_ ?_,
                  List.chain'_pair.mpr (escalates_intro ?_ ?_ ?_ ?_ ?_)⟩ <;>
                dsimp only
              · omega
              · exact le_trans (by omega) (le_max_right _ _)
              · simp
              · simp
              · simp
              · omega
              · exact le_add_of_nonneg_right (by norm_num)
              · simp
              · simp
              · exact fun h => h
          · refine List.chain'_pair.mpr (escalates_intro ?_ ?_ ?_ ?_ ?_) <;>
              dsimp only
            · omega
            · exact le_trans (by omega) (le_max_right _ _)
            · simp
            · simp
            · simp
      · simp

/-- C2: `executeSwap` makes at most 3 `tryOnce` attempts; when it fails, the
error it throws is verbatim the error of the final attempt made (and the
handler records a `FAILED` outcome carrying that message); it only reports
success when the final attempt actually succeeded. -/
theorem executeSwap_bounded_attempts_last_error (baseSlip baseCup : Int)
    (shared0 : Bool) (env : Nat → Option String) :
    (executeSwap baseSlip baseCup shared0 env).1.length ≤ 3 ∧
    (∀ msg, (executeSwap baseSlip baseCup shared0 env).2 = .error msg →
      env ((executeSwap baseSlip baseCup shared0 env).1.length - 1) = some msg ∧
      completeEventRecord (executeSwap baseSlip baseCup shared0 env).2 =
        ("FAILED", some msg)) ∧
    ((executeSwap baseSlip baseCup shared0 env).2 = .ok () →
      env ((executeSwap baseSlip baseCup shared0 env).1.length - 1) = none) := by
  unfold executeSwap
  cases h0 : env 0 with
  | none =>
    refine ⟨by simp, ?_, by intro _; simpa using h0⟩
    intro m hm
    simp at hm
  | some msg =>
    dsimp only
    split
    · cases h1 : env 1 with
      | none =>
        refine ⟨by simp, ?_, by intro _; simpa using h1⟩
        intro m hm
        simp at hm
      | some msg2 =>
        refine ⟨by simp, ?_, ?_⟩
        · intro m hm
          replace hm : msg2 = m := by simpa using hm
          subst hm
          exact ⟨by simpa using h1, rfl⟩
        · intro h
          simp at h
    · split
      · cases h1 : env 1 with
        | none =>
          refine ⟨by simp, ?_, by intro _; simpa using h1⟩
          intro m hm
          simp at hm
        | some msg2 =>
          dsimp only
          split
          · cases h2 : env 2 with
            | none =>
              refine ⟨by simp, ?_, by intro _; simpa using h2⟩
              intro m hm
              simp at hm
            | some msg3 =>
              refine ⟨by simp, ?_, ?_⟩
              · intro m hm
                replace hm : msg3 = m := by simpa using hm
                subst hm
                exact ⟨by simpa using h2, rfl⟩
              · intro h
                simp at h
          · refine ⟨by simp, ?_, ?_⟩
            · intro m hm
              replace hm : msg2 = m := by simpa using hm
              subst hm
              exact ⟨by simpa using h1, rfl⟩
            · intro h
              simp at h
      · refine ⟨by simp, ?_, ?_⟩
        · intro m hm
          replace hm : msg = m := by simpa using hm
          subst hm
          exact ⟨by simpa using h0, rfl⟩
        · intro h
          simp at h

/-- Witness for C2 at a concrete input: every attempt fails with
`"Simulation failed: x"`, so three attempts are made, the thrown error is the
third attempt's message, and a `FAILED` record carrying it is written. -/
theorem executeSwap_bounded_attempts_last_error_witness :
    (executeSwap 50 50000 true (fun _ => some "Simulation failed: x")).1.length ≤ 3 ∧
    (fun _ => some "Simulation failed: x" : Nat → Option String)
        ((executeSwap 50 50000 true (fun _ => some "Simulation failed: x")).1.length - 1) =
      some "Simulation failed: x" ∧
    completeEventRecord
        (executeSwap 50 50000 true (fun _ => some "Simulation failed: x")).2 =
      ("FAILED", some "Simulation failed: x") := by
  obtain ⟨h1, h2, _⟩ :=
    executeSwap_bounded_attempts_last_error 50 50000 true
      (fun _ => some "Simulation failed: x")
  obtain ⟨h2a, h2b⟩ := h2 "Simulation failed: x" (by rfl)
  exact ⟨h1, h2a, h2b⟩

/-! ## Webhook idempotency (`src/index.ts`, third variant) -/

/-- The result of `Number(payload.input_amount ?? 0)`: either `NaN` or an
actual numeric value (modelled at integer precision). -/
inductive NumVal
  | nan
  | val (n : Int)
  deriving DecidableEq, Repr

/-- The normalized inbound payload as the handler reads it.  `signal_id` is
`String(payload.signal_id || "").trim()`; an absent or falsy mint field is
modelled by the empty string. -/
structure SignalPayload where
  signal_id : String
  input_mint : String
  output_mint : String
  input_amount : NumVal
  deriving DecidableEq, Repr

/-- The HTTP responses the `/nexagent-signal` handler can produce. -/
inductive HandlerResponse
  | unauthorized
  | badRequest (err : String)
  | idempotencyError
  | ignoredDuplicate
  | executed
  | executionFailed (err : String)
  deriving DecidableEq, Repr

/-- Embeds `tryClaimSignal` of `src/index.ts`: Firestore
`ref.create` succeeds only if no document with this id exists, so the
claimed-signals collection is modelled by the list of already-claimed ids.
Returns whether the claim succeeded together with the updated store. -/
def tryClaimSignal (store : List String) (signalId : String) :
    Bool × List String :=
  if signalId ∈ store then (false, store) else (true, signalId :: store)

/-- Embeds the `/nexagent-signal` route handler of `src/index.ts` (the
variant with Firestore idempotency).  `sharedSecret` is the
`NEXAGENT_SHARED_SECRET` environment value (empty when unset, which disables
auth), `headerSecret` the `x-nexagent-secret` header (empty when missing),
`claimThrows` models an unexpected Firestore error inside `tryClaimSignal`,
and `execResult` the outcome of `executeTradeFromSignal` when it is reached.
Returns the response, the updated idempotency store, and whether
`executeTradeFromSignal` was invoked. -/
def handleNexagentSignal (sharedSecret headerSecret : String)
    (p : SignalPayload) (store : List String) (claimThrows : Bool)
    (execResult : Except String Unit) :
    HandlerResponse × List String × Bool :=
  if sharedSecret ≠ "" ∧ (headerSecret = "" ∨ headerSecret ≠ sharedSecret) then
    (.unauthorized, store, false)
  else if p.signal_id = "" then
    (.badRequest "Missing signal_id", store, false)
  else if p.input_mint = "" ∨ p.output_mint = "" then
    (.badRequest "Missing input_mint or output_mint", store, false)
  else
    match p.input_amount with
    | .nan => (.badRequest "Invalid input_amount", store, false)
    | .val n =>
      if n < 0 then (.badRequest "Invalid input_amount", store, false)
      else if claimThrows then (.idempotencyError, store, false)
      else
        match tryClaimSignal store p.signal_id with
        | (false, store2) => (.ignoredDuplicate, store2, false)
        | (true, store2) =>
          match execResult with
          | .ok _ => (.executed, store2, true)
          | .error m => (.executionFailed m, store2, true)

/-- C3: when the handler reaches the idempotency step and the signal id has
already been claimed (`tryClaimSignal` returns `false`), it responds with
the ignored-duplicate outcome and does not invoke `executeTradeFromSignal`
(so no quote is requested and nothing is broadcast for the duplicate). -/
theorem handleNexagentSignal_duplicate_ignored
    (sharedSecret headerSecret : String) (p : SignalPayload)
    (store : List String) (execResult : Except String Unit)
    (hauth : ¬(sharedSecret ≠ "" ∧ (headerSecret = "" ∨ headerSecret ≠ sharedSecret)))
    (hid : p.signal_id ≠ "")
    (hmints : ¬(p.input_mint = "" ∨ p.output_mint = ""))
    (n : Int) (hamount : p.input_amount = NumVal.val n) (hn : ¬n < 0)
    (hdup : (tryClaimSignal store p.signal_id).1 = false) :
    handleNexagentSignal sharedSecret headerSecret p store false execResult =
      (HandlerResponse.ignoredDuplicate, store, false) := by
  have hmem : p.signal_id ∈ store := by
    by_contra hmem
    simp [tryClaimSignal, hmem] at hdup
  unfold handleNexagentSignal
  rw [if_neg hauth, if_neg hid, if_neg hmints, hamount]
  dsimp only
  rw [if_neg hn]
  simp [tryClaimSignal, hmem]

/-- Witness for C3: the id `"sig-1"` is already in the store, validation
passes, and the handler answers `ignoredDuplicate` without executing. -/
theorem handleNexagentSignal_duplicate_ignored_witness :
    handleNexagentSignal "" "" ⟨"sig-1", "So1", "Tok", NumVal.val 5⟩ ["sig-1"]
        false (Except.ok ()) =
      (HandlerResponse.ignoredDuplicate, ["sig-1"], false) := by
  exact handleNexagentSignal_duplicate_ignored "" ""
    ⟨"sig-1", "So1", "Tok", NumVal.val 5⟩ ["sig-1"] (Except.ok ())
    (by simp) (by simp) (by simp) 5 rfl (by norm_num)
    (by simp [tryClaimSignal])

/-! ## Solvency and tip sizing (`src/tradeExecutor.ts`) -/

/-- `LAMPORTS_PER_SOL` from `@solana/web3.js`. -/
def LAMPORTS_PER_SOL : Int := 1000000000

/-- `MIN_SOL_BUFFER = 0.02 * LAMPORTS_PER_SOL`. -/
def MIN_SOL_BUFFER : Int := 20000000

/-- `EST_FEE_LAMPORTS` constant. -/
def EST_FEE_LAMPORTS : Int := 600000

/-- Embeds `getSolvencyAndTip` of `src/tradeExecutor.ts`.  `none` models the
`Insufficient SOL` throw.  The default tip is `0.001 SOL`, the minimum
scaled-down tip `0.0003 SOL`; `Math.max(0, ...)` before the `BigInt`
conversion clamps the spendable amount at zero.  Returns
`(tipLamports, spendableLamports)`. -/
def getSolvencyAndTip (balLamports : Int) (needsAta : Bool) (ataRent : Int) :
    Option (Int × Int) :=
  let rentCost := if needsAta then ataRent else 0
  let tip0 : Int := 1000000
  let requiredForOverhead := MIN_SOL_BUFFER + EST_FEE_LAMPORTS + rentCost
  if balLamports < requiredForOverhead + tip0 then
    let remainingSol := balLamports - requiredForOverhead
    if remainingSol ≤ 0 then none
    else
      let tip := max 300000 remainingSol
      some (tip, max 0 (balLamports - (requiredForOverhead + tip)))
  else
    some (tip0, max 0 (balLamports - (requiredForOverhead + tip0)))

/-- C4 counterexample: with balance `20_700_000` lamports and no ATA needed,
`getSolvencyAndTip` scales the tip *up* to the minimum viable `300_000`
(larger than the `100_000` lamports that remain after the overhead), and the
zero-clamp then returns `spendableLamports = 0`, which strictly exceeds
`wallet_balance - (buffer + fee + rent + tip) = -200_000`. -/
theorem getSolvencyAndTip_counterexample :
    getSolvencyAndTip 20700000 false 2039280 = some (300000, 0) ∧
    (20700000 - (MIN_SOL_BUFFER + EST_FEE_LAMPORTS + 0 + 300000) : Int) < 0 := by
  constructor
  · rfl
  · decide

/-- C4 (amended): whenever `getSolvencyAndTip` returns, the spendable amount
never exceeds the larger of `0` and
`wallet_balance - (buffer + fee + rent_if_needed + tip)`; equivalently, the
claimed bound holds whenever that difference is nonnegative. -/
theorem getSolvencyAndTip_spendable_bound (balLamports : Int) (needsAta : Bool)
    (ataRent : Int) (tip spendable : Int)
    (h : getSolvencyAndTip balLamports needsAta ataRent = some (tip, spendable)) :
    spendable ≤
      max 0 (balLamports -
        (MIN_SOL_BUFFER + EST_FEE_LAMPORTS +
          (if needsAta then ataRent else 0) + tip)) := by
  unfold getSolvencyAndTip at h
  dsimp only at h
  generalize hrent : (if needsAta = true then ataRent else 0) = rent at h ⊢
  split at h
  · split at h
    · exact absurd h (by simp)
    · rw [Option.some.injEq, Prod.mk.injEq] at h
      omega
  · rw [Option.some.injEq, Prod.mk.injEq] at h
    omega

/-- Witness for C4 (amended) at the counterexample input: the bound holds
with `spendable = 0`. -/
theorem getSolvencyAndTip_spendable_bound_witness :
    (0 : Int) ≤
      max 0 (20700000 -
        (MIN_SOL_BUFFER + EST_FEE_LAMPORTS + (if false then 2039280 else 0) + 300000)) := by
  exact getSolvencyAndTip_spendable_bound 20700000 false 2039280 300000 0 rfl

/-! ## Trade sizing (`executeTradeFromSignal` in `src/tradeExecutor.ts`) -/

/-- The `action` field of a `TradeSignal`. -/
inductive TradeAction
  | buy
  | sell
  deriving DecidableEq, Repr

/-- Embeds the BUY sizing step of `executeTradeFromSignal`: the requested
lamport amount (`BigInt(Math.round(input_amount * LAMPORTS_PER_SOL))`) is
clipped to the spendable amount when it exceeds it, and the trade throws
when nothing is spendable. -/
def sizeBuyAmount (requested spendable : Int) : Except String Int :=
  if requested > spendable then
    if spendable ≤ 0 then
      .error "Insufficient SOL to execute any BUY trade after overhead costs."
    else .ok spendable
  else .ok requested

/-- Embeds the SELL sizing step of `executeTradeFromSignal`: the on-chain
token balance is fetched, a zero balance aborts the SELL, and otherwise
`(balance * 9999n) / 10000n` (BigInt division, i.e. floor) is traded. -/
def sizeSellAmount (tokenBalance : Nat) : Except String Nat :=
  if tokenBalance = 0 then .error "No wallet balance. Skipping SELL."
  else .ok (tokenBalance * 9999 / 10000)

/-- Embeds steps 1-3 of `executeTradeFromSignal` up to the amount that is
passed to `getFreshQuote`: the bot-status gate, the solvency computation
(`needsAtaCreation` is only consulted for BUY; SELL passes `false`), and the
per-action sizing.  `requestedLamports` is the caller-supplied
`input_amount` converted to lamports; `tokenBalance` the wallet's on-chain
balance of the input mint.  An `Except.error` models the function throwing
before any quote is requested. -/
def quoteAmountForSignal (botStatus : String) (action : TradeAction)
    (requestedLamports solBalance : Int) (needsAta : Bool) (ataRent : Int)
    (tokenBalance : Nat) : Except String Int :=
  if botStatus ≠ "RUNNING" then
    .error "Bot status is not RUNNING. Skipping signal."
  else
    match getSolvencyAndTip solBalance
        (if action = TradeAction.buy then needsAta else false) ataRent with
    | none => .error "Insufficient SOL for minimum buffer plus fees plus rent."
    | some (_tip, spendable) =>
      match action with
      | .buy => sizeBuyAmount requestedLamports spendable
      | .sell =>
        match sizeSellAmount tokenBalance with
        | .error e => .error e
        | .ok n => .ok (n : Int)

/-- C5: for a BUY whose requested lamports exceed the spendable amount, the
amount handed to the quote client is exactly the spendable amount (never the
raw request) whenever the spendable amount is positive, and the BUY fails
before quoting when the spendable amount is zero or negative. -/
theorem buy_amount_clipped_to_spendable (requested solBalance : Int)
    (needsAta : Bool) (ataRent : Int) (tokenBalance : Nat) (tip spendable : Int)
    (hsolv : getSolvencyAndTip solBalance needsAta ataRent = some (tip, spendable))
    (hgt : requested > spendable) :
    (0 < spendable →
      quoteAmountForSignal "RUNNING" TradeAction.buy requested solBalance
        needsAta ataRent tokenBalance = .ok spendable) ∧
    (spendable ≤ 0 →
      quoteAmountForSignal "RUNNING" TradeAction.buy requested solBalance
        needsAta ataRent tokenBalance =
        .error "Insufficient SOL to execute any BUY trade after overhead costs.") := by
  unfold quoteAmountForSignal
  simp only [reduceIte, ne_eq, not_true_eq_false]
  rw [hsolv]
  dsimp only
  unfold sizeBuyAmount
  rw [if_pos hgt]
  constructor
  · intro hpos
    rw [if_neg (by omega)]
  · intro hnonpos
    rw [if_pos hnonpos]

/-- Witness for C5: with a 1 SOL balance (spendable `978_400_000` lamports)
and a 2 SOL request, the quoted amount is the spendable amount. -/
theorem buy_amount_clipped_to_spendable_witness :
    quoteAmountForSignal "RUNNING" TradeAction.buy 2000000000 1000000000
        false 2039280 0 = .ok 978400000 := by
  have h := buy_amount_clipped_to_spendable 2000000000 1000000000 false 2039280 0
    1000000 978400000 (by rfl) (by norm_num)
  exact h.1 (by norm_num)

/-- C6: the SELL amount handed to the quote client is derived solely from
the on-chain token balance — it equals `floor(balance * 9999 / 10000)` and
is unchanged under any caller-supplied `input_amount` — and a zero balance
aborts the SELL before any quote is requested. -/
theorem sell_amount_from_onchain_balance (requested requested' solBalance : Int)
    (needsAta : Bool) (ataRent : Int) (tokenBalance : Nat) (tip spendable : Int)
    (hsolv : getSolvencyAndTip solBalance false ataRent = some (tip, spendable)) :
    quoteAmountForSignal "RUNNING" TradeAction.sell requested solBalance
        needsAta ataRent tokenBalance =
      quoteAmountForSignal "RUNNING" TradeAction.sell requested' solBalance
        needsAta ataRent tokenBalance ∧
    (tokenBalance ≠ 0 →
      quoteAmountForSignal "RUNNING" TradeAction.sell requested solBalance
        needsAta ataRent tokenBalance = .ok ((tokenBalance * 9999 / 10000 : Nat) : Int)) ∧
    (tokenBalance = 0 →
      quoteAmountForSignal "RUNNING" TradeAction.sell requested solBalance
        needsAta ataRent tokenBalance = .error "No wallet balance. Skipping SELL.") := by
  refine ⟨rfl, ?_, ?_⟩
  · intro hnz
    unfold quoteAmountForSignal
    simp only [reduceIte, ne_eq, not_true_eq_false]
    have hsolv2 : getSolvencyAndTip solBalance
        (if TradeAction.sell = TradeAction.buy then needsAta else false) ataRent =
        some (tip, spendable) := hsolv
    rw [hsolv2]
    dsimp only
    unfold sizeSellAmount
    rw [if_neg hnz]
  · intro hz
    subst hz
    unfold quoteAmountForSignal
    simp only [reduceIte, ne_eq, not_true_eq_false]
    have hsolv2 : getSolvencyAndTip solBalance
        (if TradeAction.sell = TradeAction.buy then needsAta else false) ataRent =
        some (tip, spendable) := hsolv
    rw [hsolv2]
    rfl

/-- Witness for C6: with a 1 SOL balance and a token balance of `12345`, the
quoted SELL amount is `12343 = floor(12345 * 9999 / 10000)` for two
different caller-supplied amounts. -/
theorem sell_amount_from_onchain_balance_witness :
    quoteAmountForSignal "RUNNING" TradeAction.sell 7 1000000000 true 2039280
        12345 =
      quoteAmountForSignal "RUNNING" TradeAction.sell 99999 1000000000 true
        2039280 12345 ∧
    quoteAmountForSignal "RUNNING" TradeAction.sell 7 1000000000 true 2039280
        12345 = .ok 12343 := by
  have h := sell_amount_from_onchain_balance 7 99999 1000000000 true 2039280
    12345 1000000 978400000 (by rfl)
  exact ⟨h.1, h.2.1 (by norm_num)⟩

/-! ## Quote freshness guard (`getFreshQuote` in `src/tradeExecutor.ts`) -/

/-- The data of a received quote that the freshness guard inspects: its age
in milliseconds, its route hop count (`routePlan.length`), and a tag
distinguishing distinct quotes. -/
structure QuoteInfo where
  age : Nat
  hops : Nat
  tag : Nat
  deriving DecidableEq, Repr

/-- One `jupiterApi.quoteGet` attempt as the loop observes it: the call
threw (caught and logged), returned no quote, or returned a quote. -/
inductive FetchOutcome
  | throwErr
  | noQuote
  | got (q : QuoteInfo)
  deriving DecidableEq, Repr

/-- `MAX_QUOTE_AGE_MS` constant. -/
def MAX_QUOTE_AGE_MS : Nat := 1500

/-- `MAX_HOPS_BEFORE_REFRESH` constant. -/
def MAX_HOPS_BEFORE_REFRESH : Nat := 2

/-- The staleness test `quoteAge > MAX_QUOTE_AGE_MS || hopCount >
MAX_HOPS_BEFORE_REFRESH`. -/
def isStaleQuote (q : QuoteInfo) : Bool :=
  decide (MAX_QUOTE_AGE_MS < q.age) || decide (MAX_HOPS_BEFORE_REFRESH < q.hops)

/-- Embeds the `while (attempts < maxAttempts)` loop of `getFreshQuote`.
`env` gives the outcome of each `quoteGet` call (indexed by the number of
calls already made), the first argument is the remaining attempt budget
(`maxAttempts - attempts`), the second the number of calls already made.
Returns the total number of `quoteGet` calls performed together with the
result; fuel `0` is the loop exiting and throwing
`Failed to obtain a fresh quote`. -/
def getFreshQuoteLoop (env : Nat → FetchOutcome) :
    Nat → Nat → Nat × Except String QuoteInfo
  | 0, calls => (calls, .error "Failed to obtain a fresh quote.")
  | r + 1, calls =>
    match env calls with
    | .throwErr => getFreshQuoteLoop env r (calls + 1)
    | .noQuote =>
      if r = 0 then
        (calls + 1, .error "Failed to get quote from Jupiter after attempts.")
      else getFreshQuoteLoop env r (calls + 1)
    | .got q =>
      if isStaleQuote q then
        if r = 0 then (calls + 1, .ok q)
        else getFreshQuoteLoop env r (calls + 1)
      else (calls + 1, .ok q)

/-- Embeds `getFreshQuote` with its `maxAttempts = 3` budget. -/
def getFreshQuote (env : Nat → FetchOutcome) : Nat × Except String QuoteInfo :=
  getFreshQuoteLoop env 3 0

/-- The loop performs at most as many further calls as it has fuel. -/
theorem getFreshQuoteLoop_count_le (env : Nat → FetchOutcome) :
    ∀ r calls, (getFreshQuoteLoop env r calls).1 ≤ calls + r := by
  intro r
  induction r with
  | zero =>
    intro calls
    simp [getFreshQuoteLoop]
  | succ n ih =>
    intro calls
    unfold getFreshQuoteLoop
    cases env calls with
    | throwErr => exact le_trans (ih (calls + 1)) (by omega)
    | noQuote =>
      dsimp only
      split
      · show calls + 1 ≤ calls + (n + 1)
        omega
      · exact le_trans (ih (calls + 1)) (by omega)
    | got q =>
      dsimp only
      split
      · split
        · show calls + 1 ≤ calls + (n + 1)
          omega
        · exact le_trans (ih (calls + 1)) (by omega)
      · show calls + 1 ≤ calls + (n + 1)
        omega

/-- With at least one unit of fuel the loop performs at least one call. -/
theorem getFreshQuoteLoop_count_ge (env : Nat → FetchOutcome) :
    ∀ r calls, 1 ≤ r → calls + 1 ≤ (getFreshQuoteLoop env r calls).1 := by
  intro r
  induction r with
  | zero => omega
  | succ n ih =>
    intro calls _
    unfold getFreshQuoteLoop
    cases env calls with
    | throwErr =>
      rcases Nat.eq_zero_or_pos n with hn | hn
      · subst hn
        show calls + 1 ≤ calls + 1
        omega
      · exact le_trans (by omega) (ih (calls + 1) hn)
    | noQuote =>
      dsimp only
      split
      · show calls + 1 ≤ calls + 1
        omega
      · rename_i hn
        exact le_trans (by omega) (ih (calls + 1) (by omega))
    | got q =>
      dsimp only
      split
      · split
        · show calls + 1 ≤ calls + 1
          omega
        · rename_i hn
          exact le_trans (by omega) (ih (calls + 1) (by omega))
      · show calls + 1 ≤ calls + 1
        omega

/-- C7 counterexample: two stale quotes followed by a failed fetch exhaust
the retry budget, yet `getFreshQuote` throws instead of returning either of
the quotes it obtained. -/
def staleFetchEnv : Nat → FetchOutcome := fun n =>
  match n with
  | 0 => .got ⟨2000, 1, 1⟩
  | 1 => .got ⟨2000, 1, 2⟩
  | _ => .throwErr

/-- C7 counterexample theorem: the first two attempts each obtained a quote
and the budget is exhausted, but the result is the
`Failed to obtain a fresh quote` error, not the last quote obtained. -/
theorem getFreshQuote_exhausted_counterexample :
    staleFetchEnv 0 = FetchOutcome.got ⟨2000, 1, 1⟩ ∧
    staleFetchEnv 1 = FetchOutcome.got ⟨2000, 1, 2⟩ ∧
    getFreshQuote staleFetchEnv =
      (3, Except.error "Failed to obtain a fresh quote.") := by
  refine ⟨rfl, rfl, ?_⟩
  rfl

/-- C7 (amended): the guard is bounded — never more than 3 fetches; a stale
quote on a non-final attempt triggers exactly one immediate re-fetch (if the
re-fetched quote is fresh it is returned after exactly 2 fetches); and when
the budget is exhausted with the final attempt still producing a quote, that
quote is returned (even if stale) rather than an error.  If the final
attempt produces no quote, the function fails even though earlier stale
quotes were obtained. -/
theorem getFreshQuote_bounded_guard (env : Nat → FetchOutcome) :
    (getFreshQuote env).1 ≤ 3 ∧
    (∀ q, env 0 = .got q → isStaleQuote q = true → 2 ≤ (getFreshQuote env).1) ∧
    (∀ q q', env 0 = .got q → isStaleQuote q = true → env 1 = .got q' →
      isStaleQuote q' = false → getFreshQuote env = (2, .ok q')) ∧
    (∀ q q' q2, env 0 = .got q → isStaleQuote q = true → env 1 = .got q' →
      isStaleQuote q' = true → env 2 = .got q2 →
      getFreshQuote env = (3, .ok q2)) := by
  refine ⟨getFreshQuoteLoop_count_le env 3 0, ?_, ?_, ?_⟩
  · intro q h0 hstale
    unfold getFreshQuote getFreshQuoteLoop
    rw [h0]
    dsimp only
    rw [if_pos hstale, if_neg (by omega : ¬(2 : Nat) = 0)]
    exact getFreshQuoteLoop_count_ge env 2 1 (by omega)
  · intro q q' h0 hstale h1 hfresh
    unfold getFreshQuote getFreshQuoteLoop
    rw [h0]
    dsimp only
    rw [if_pos hstale, if_neg (by omega : ¬(2 : Nat) = 0)]
    unfold getFreshQuoteLoop
    rw [h1]
    dsimp only
    rw [if_neg (by rw [hfresh]; exact Bool.false_ne_true)]
  · intro q q' q2 h0 hstale h1 hstale2 h2
    unfold getFreshQuote getFreshQuoteLoop
    rw [h0]
    dsimp only
    rw [if_pos hstale, if_neg (by omega : ¬(2 : Nat) = 0)]
    unfold getFreshQuoteLoop
    rw [h1]
    dsimp only
    rw [if_pos hstale2, if_neg (by omega : ¬(1 : Nat) = 0)]
    unfold getFreshQuoteLoop
    rw [h2]
    dsimp only
    cases hq2 : isStaleQuote q2 <;> simp [hq2]

/-- Witness for C7 (amended): a stale first quote followed by a fresh quote
yields exactly two fetches and the fresh quote. -/
theorem getFreshQuote_bounded_guard_witness :
    getFreshQuote (fun n => match n with
      | 0 => FetchOutcome.got ⟨2000, 1, 1⟩
      | _ => FetchOutcome.got ⟨3, 1, 2⟩) = (2, Except.ok ⟨3, 1, 2⟩) := by
  exact (getFreshQuote_bounded_guard _).2.2.1 ⟨2000, 1, 1⟩ ⟨3, 1, 2⟩ rfl rfl rfl rfl

/-! ## Broadcast race (step 6 of `executeTradeFromSignal`) -/

/-- One send channel completing: the promise fulfilled with a signature or
rejected with an error. -/
inductive ChanEvent
  | success (sig : String)
  | failure (err : String)
  deriving DecidableEq, Repr

/-- Whether a completion event is a rejection. -/
def isFailureEvent : ChanEvent → Bool
  | .success _ => false
  | .failure _ => true

/-- Embeds the manual promise race of step 6: completion events are
processed in arrival order; the first fulfilment resolves the race with its
signature (`resolved` flag), each rejection is pushed onto `errors`, and the
race rejects only when `errors.length === sendPromises.length`.  `n` is the
number of channels, the accumulator the number of rejections seen so far;
`none` means the race is still pending after these events. -/
def raceGo (n : Nat) : List ChanEvent → Nat → Option (Except String String)
  | [], _ => none
  | .success s :: _, _ => some (.ok s)
  | .failure _ :: rest, errs =>
    if errs + 1 = n then some (.error "All transaction send attempts failed.")
    else raceGo n rest (errs + 1)

/-- Embeds the full race, including the empty-channel-list guard
(`No send methods configured`). -/
def raceOutcome (n : Nat) (events : List ChanEvent) :
    Option (Except String String) :=
  if n = 0 then some (.error "No send methods configured.")
  else raceGo n events 0

/-- All-failure prefixes below the channel count leave the race pending. -/
theorem raceGo_pending (n : Nat) :
    ∀ (events : List ChanEvent) (errs : Nat),
      (∀ e ∈ events, isFailureEvent e = true) →
      errs + events.length < n → raceGo n events errs = none := by
  intro events
  induction events with
  | nil => intro errs _ _; rfl
  | cons e rest ih =>
    intro errs hfail hlt
    cases e with
    | success s =>
      have := hfail (ChanEvent.success s) (by simp)
      simp [isFailureEvent] at this
    | failure err =>
      unfold raceGo
      rw [if_neg (by simp at hlt; omega)]
      exact ih (errs + 1) (fun x hx => hfail x (by simp [hx]))
        (by simp at hlt ⊢; omega)

/-- When every channel has rejected, the race rejects. -/
theorem raceGo_all_fail (n : Nat) :
    ∀ (events : List ChanEvent) (errs : Nat),
      (∀ e ∈ events, isFailureEvent e = true) →
      errs + events.length = n → events ≠ [] →
      raceGo n events errs =
        some (.error "All transaction send attempts failed.") := by
  intro events
  induction events with
  | nil => intro errs _ _ hne; exact absurd rfl hne
  | cons e rest ih =>
    intro errs hfail heq _
    cases e with
    | success s =>
      have := hfail (ChanEvent.success s) (by simp)
      simp [isFailureEvent] at this
    | failure err =>
      unfold raceGo
      rcases List.eq_nil_or_concat rest with hrest | _
      · subst hrest
        rw [if_pos (by simp at heq; omega)]
      · rcases Nat.eq_zero_or_pos rest.length with hlen | hlen
        · rw [List.length_eq_zero] at hlen
          subst hlen
          rw [if_pos (by simp at heq; omega)]
        · rw [if_neg (by simp at heq; omega)]
          exact ih (errs + 1) (fun x hx => hfail x (by simp [hx]))
            (by simp at heq ⊢; omega) (by rw [← List.length_pos]; omega)

/-- The first fulfilment resolves the race with its signature, regardless of
later events, provided the rejection counter cannot have reached the channel
count first. -/
theorem raceGo_first_success (n : Nat) (s : String) :
    ∀ (pre rest : List ChanEvent) (errs : Nat),
      (∀ e ∈ pre, isFailureEvent e = true) →
      errs + pre.length < n →
      raceGo n (pre ++ ChanEvent.success s :: rest) errs = some (.ok s) := by
  intro pre
  induction pre with
  | nil => intro rest errs _ _; rfl
  | cons e p ih =>
    intro rest errs hfail hlt
    cases e with
    | success s2 =>
      have := hfail (ChanEvent.success s2) (by simp)
      simp [isFailureEvent] at this
    | failure err =>
      show raceGo n (ChanEvent.failure err :: (p ++ ChanEvent.success s :: rest)) errs = _
      unfold raceGo
      rw [if_neg (by simp at hlt; omega)]
      exact ih rest (errs + 1) (fun x hx => hfail x (by simp [hx]))
        (by simp at hlt ⊢; omega)

/-- Inversion: the race only rejects after every channel has rejected, and
only with the all-channels-failed error. -/
theorem raceGo_error_inversion (n : Nat) :
    ∀ (events : List ChanEvent) (errs : Nat) (msg : String),
      errs + events.length ≤ n →
      raceGo n events errs = some (.error msg) →
      (∀ e ∈ events, isFailureEvent e = true) ∧ errs + events.length = n ∧
        msg = "All transaction send attempts failed." := by
  intro events
  induction events with
  | nil =>
    intro errs msg _ h
    exact absurd h (by simp [raceGo])
  | cons e rest ih =>
    intro errs msg hle h
    cases e with
    | success s =>
      rw [show raceGo n (ChanEvent.success s :: rest) errs = some (.ok s) from rfl] at h
      simp at h
    | failure err =>
      unfold raceGo at h
      by_cases hn : errs + 1 = n
      · rw [if_pos hn] at h
        simp only [Option.some.injEq, Except.error.injEq] at h
        have hrest : rest = [] := by
          rw [← List.length_eq_zero]
          simp at hle
          omega
        subst hrest
        refine ⟨?_, by simp; omega, h.symm⟩
        intro x hx
        simp at hx
        subst hx
        rfl
      · rw [if_neg hn] at h
        obtain ⟨hf, hlen, hmsg⟩ := ih (errs + 1) msg (by simp at hle ⊢; omega) h
        refine ⟨?_, by simp at hlen ⊢; omega, hmsg⟩
        intro x hx
        rcases List.mem_cons.mp hx with hx | hx
        · subst hx; rfl
        · exact hf x hx

/-- C8: the race resolves with the signature of whichever channel fulfils
first; rejections never fail the attempt while some channel is still
pending; and the race rejects if and only if every configured channel has
rejected (with the all-channels-failed error). -/
theorem raceOutcome_spec (n : Nat) (events : List ChanEvent)
    (hn : n ≠ 0) (hlen : events.length ≤ n) :
    ((∀ e ∈ events, isFailureEvent e = true) → events.length < n →
      raceOutcome n events = none) ∧
    ((∀ e ∈ events, isFailureEvent e = true) → events.length = n →
      raceOutcome n events =
        some (.error "All transaction send attempts failed.")) ∧
    (∀ pre s rest, events = pre ++ ChanEvent.success s :: rest →
      (∀ e ∈ pre, isFailureEvent e = true) →
      raceOutcome n events = some (.ok s)) ∧
    (∀ msg, raceOutcome n events = some (.error msg) →
      (∀ e ∈ events, isFailureEvent e = true) ∧ events.length = n ∧
        msg = "All transaction send attempts failed.") := by
  unfold raceOutcome
  rw [if_neg hn]
  refine ⟨?_, ?_, ?_, ?_⟩
  · intro hfail hlt
    exact raceGo_pending n events 0 hfail (by omega)
  · intro hfail hlen2
    refine raceGo_all_fail n events 0 hfail (by omega) ?_
    intro hnil
    subst hnil
    simp at hlen2
    omega
  · intro pre s rest hev hfail
    subst hev
    refine raceGo_first_success n s pre rest 0 hfail ?_
    simp at hlen
    omega
  · intro msg h
    obtain ⟨hf, hl, hm⟩ := raceGo_error_inversion n events 0 msg (by omega) h
    exact ⟨hf, by omega, hm⟩

/-- Witness for C8 with two channels: one early rejection plus one
fulfilment resolves the race with the fulfilling channel signature. -/
theorem raceOutcome_spec_witness :
    raceOutcome 2 [ChanEvent.failure "Helius Failed", ChanEvent.success "sig9"] =
      some (Except.ok "sig9") := by
  exact (raceOutcome_spec 2
      [ChanEvent.failure "Helius Failed", ChanEvent.success "sig9"]
      (by omega) (by simp)).2.2.1
    [ChanEvent.failure "Helius Failed"] "sig9" [] rfl
    (by intro e he; simp at he; subst he; rfl)

/-! ## Confirmation polling (`waitForConfirmation` in `server/tradeExecutor.ts`) -/

/-- What one `getSignatureStatuses` poll observes: an on-chain error
(`s.err` set), a `confirmed`/`finalized` status, or anything else
(pending). -/
inductive PollResult
  | errStatus (e : String)
  | landed
  | pending
  deriving DecidableEq, Repr

/-- The message of the throw inside `statusOk` when `s.err` is set (the
JSON-stringified error is abstracted as the string `e`). -/
def onChainErrorMsg (e : String) : String :=
  "on-chain error: " ++ e

/-- Embeds the poll loop of `waitForConfirmation` plus its two late checks.
The first argument is the number of in-deadline loop iterations the wall
clock permits (`Date.now() - started < timeoutMs`), the second the index of
the next status poll.  At fuel `0` the deadline has elapsed: one more status
poll runs (an error in it propagates, a landing returns), and otherwise the
`getTransaction` lookup (`txFound`, with a throw or a `null` result both
modelled as `false`) decides between success and the
`confirmation timeout` error.  Returns the number of status polls performed
together with the outcome. -/
def confirmLoop (polls : Nat → PollResult) (txFound : Bool) :
    Nat → Nat → Nat × Except String Unit
  | 0, k =>
    match polls k with
    | .errStatus e => (k + 1, .error (onChainErrorMsg e))
    | .landed => (k + 1, .ok ())
    | .pending =>
      if txFound then (k + 1, .ok ()) else (k + 1, .error "confirmation timeout")
  | n + 1, k =>
    match polls k with
    | .errStatus e => (k + 1, .error (onChainErrorMsg e))
    | .landed => (k + 1, .ok ())
    | .pending => confirmLoop polls txFound n (k + 1)

/-- Embeds `waitForConfirmation`: run the deadline-bounded poll loop from
poll index `0`. -/
def waitForConfirmation (deadlinePolls : Nat) (polls : Nat → PollResult)
    (txFound : Bool) : Nat × Except String Unit :=
  confirmLoop polls txFound deadlinePolls 0

/-- If every poll in the window is pending, the loop runs to the deadline,
performs exactly one more status poll, and then resolves by the transaction
lookup. -/
theorem confirmLoop_all_pending (polls : Nat → PollResult) (txFound : Bool) :
    ∀ n k, (∀ i, k ≤ i → i ≤ k + n → polls i = .pending) →
      confirmLoop polls txFound n k =
        (k + n + 1,
          if txFound then .ok () else .error "confirmation timeout") := by
  intro n
  induction n with
  | zero =>
    intro k hp
    unfold confirmLoop
    rw [hp k le_rfl (by omega)]
    dsimp only
    split <;> rfl
  | succ m ih =>
    intro k hp
    unfold confirmLoop
    rw [hp k le_rfl (by omega)]
    dsimp only
    rw [ih (k + 1) (fun i h1 h2 => hp i (by omega) (by omega))]
    refine congrArg (fun x => (x, _)) (by omega)

/-- If every poll before the deadline is pending and the late status poll
reports the transaction landed, the loop succeeds at poll `k + n`. -/
theorem confirmLoop_late_landed (polls : Nat → PollResult) (txFound : Bool) :
    ∀ n k, (∀ i, k ≤ i → i < k + n → polls i = .pending) →
      polls (k + n) = .landed →
      confirmLoop polls txFound n k = (k + n + 1, .ok ()) := by
  intro n
  induction n with
  | zero =>
    intro k _ hl
    unfold confirmLoop
    rw [show k + 0 = k from rfl] at hl
    rw [hl]
  | succ m ih =>
    intro k hp hl
    unfold confirmLoop
    rw [hp k le_rfl (by omega)]
    dsimp only
    rw [ih (k + 1) (fun i h1 h2 => hp i (by omega) (by omega))
      (by rw [show k + 1 + m = k + (m + 1) from by omega]; exact hl)]
    refine congrArg (fun x => (x, _)) (by omega)

/-- An on-chain error observed at poll `j` (with all earlier polls pending)
fails immediately at poll `j`, with no further polling and no transaction
lookup. -/
theorem confirmLoop_error_immediate (polls : Nat → PollResult) (txFound : Bool) :
    ∀ n k j e, k ≤ j → j ≤ k + n →
      (∀ i, k ≤ i → i < j → polls i = .pending) →
      polls j = .errStatus e →
      confirmLoop polls txFound n k = (j + 1, .error (onChainErrorMsg e)) := by
  intro n
  induction n with
  | zero =>
    intro k j e hkj hjk _ he
    have : j = k := by omega
    subst this
    unfold confirmLoop
    rw [he]
  | succ m ih =>
    intro k j e hkj hjk hp he
    by_cases hjk2 : j = k
    · subst hjk2
      unfold confirmLoop
      rw [he]
    · unfold confirmLoop
      rw [hp k le_rfl (by omega)]
      dsimp only
      exact ih (k + 1) j e (by omega) (by omega)
        (fun i h1 h2 => hp i (by omega) h2) he

/-- C9: if the deadline (which permits `N` in-loop polls) elapses with every
in-window poll pending, `waitForConfirmation` performs exactly one more
status poll and then the transaction lookup, succeeding if the late poll
sees the transaction land or the lookup finds it, and raising the
`confirmation timeout` error only when both late checks fail; while an
on-chain error in any status poll fails immediately with no further
polling. -/
theorem waitForConfirmation_spec (deadlinePolls : Nat)
    (polls : Nat → PollResult) (txFound : Bool) :
    ((∀ i, i ≤ deadlinePolls → polls i = .pending) →
      waitForConfirmation deadlinePolls polls txFound =
        (deadlinePolls + 1,
          if txFound then .ok () else .error "confirmation timeout")) ∧
    ((∀ i, i < deadlinePolls → polls i = .pending) →
      polls deadlinePolls = .landed →
      waitForConfirmation deadlinePolls polls txFound =
        (deadlinePolls + 1, .ok ())) ∧
    (∀ j e, j ≤ deadlinePolls →
      (∀ i, i < j → polls i = .pending) →
      polls j = .errStatus e →
      waitForConfirmation deadlinePolls polls txFound =
        (j + 1, .error (onChainErrorMsg e))) := by
  refine ⟨?_, ?_, ?_⟩
  · intro hp
    unfold waitForConfirmation
    rw [confirmLoop_all_pending polls txFound deadlinePolls 0
      (fun i h1 h2 => hp i (by omega))]
    refine congrArg (fun x => (x, _)) (by omega)
  · intro hp hl
    unfold waitForConfirmation
    rw [confirmLoop_late_landed polls txFound deadlinePolls 0
      (fun i h1 h2 => hp i (by omega)) (by simpa using hl)]
    refine congrArg (fun x => (x, _)) (by omega)
  · intro j e hj hp he
    unfold waitForConfirmation
    exact confirmLoop_error_immediate polls txFound deadlinePolls 0 j e
      (by omega) (by omega) (fun i h1 h2 => hp i h2) he

/-- Witness for C9: with a 3-poll deadline, all polls pending, and the
transaction found by the late lookup, confirmation succeeds after exactly
4 status polls; with the lookup also failing it raises the timeout error. -/
theorem waitForConfirmation_spec_witness :
    waitForConfirmation 3 (fun _ => PollResult.pending) true =
      (4, Except.ok ()) ∧
    waitForConfirmation 3 (fun _ => PollResult.pending) false =
      (4, Except.error "confirmation timeout") := by
  constructor
  · exact (waitForConfirmation_spec 3 (fun _ => PollResult.pending) true).1
      (fun i _ => rfl)
  · exact (waitForConfirmation_spec 3 (fun _ => PollResult.pending) false).1
      (fun i _ => rfl)

/-! ## Priority-fee clamping (`getPriorityFeeEstimate` in `src/tradeExecutor.ts`) -/

/-- Embeds `getPriorityFeeEstimate`.  `requestFails` models the whole
request/parse throwing (the `catch` branch returns the `500_000` fallback);
`respFee` is `data.result?.priorityFeeEstimate`, with `none` for a missing
field and `some 0` for a JavaScript-falsy zero (both replaced by `500_000`
through `|| 500000`); the result is then clamped into
`[5_000, 2_000_000]`. -/
def getPriorityFeeEstimate (requestFails : Bool) (respFee : Option Int) : Int :=
  if requestFails then 500000
  else
    let fee : Int :=
      match respFee with
      | some f => if f = 0 then 500000 else f
      | none => 500000
    min (max fee 5000) 2000000

/-- C10: on every response and on every error path, the returned priority
fee lies in the closed range `[5_000, 2_000_000]` microlamports per compute
unit (in particular the error-path fallback `500_000` lies inside it). -/
theorem getPriorityFeeEstimate_in_range (requestFails : Bool)
    (respFee : Option Int) :
    5000 ≤ getPriorityFeeEstimate requestFails respFee ∧
      getPriorityFeeEstimate requestFails respFee ≤ 2000000 := by
  unfold getPriorityFeeEstimate
  split
  · norm_num
  · cases respFee with
    | none =>
      dsimp only
      omega
    | some f =>
      dsimp only
      split <;> omega

end SolanaBot
